import Mathlib

/-!
Verification of the alphatab-integration-lab cursor / loop engine.

This file shallowly embeds the numeric and state-machine core of the
repository:

* `MaestroCursor` (src/src/components/MaestroCursor.tsx, v4.5) — the
  per-beat interpolating cursor with its two walk modes, the frozen
  `nextBeatCenterX` field, the malformed-beat guard and the pause clamp.
* The `playerPositionChanged` handler of the labs page
  (src/unnamed/part_002, v5.30) — loop boundary enforcer, jump
  detection, occurrence-aware beat resolution, the `isSameBeat` gate and
  the bounded backward/forward scans.
* `BeatCustomLoopOverlay` (src/src/components/BeatCustomLoopOverlay.tsx,
  v1.7.5) — the press/move/release gesture machine with the
  `beatCrossed` intent gate and the bar-snap commit.
* `CustomLoopOverlay` (src/src/components/CustomLoopOverlay.tsx) —
  `resolveExpandedBarStart` (the timeline expander) and
  `applyLoopSelection` (the declarative loop-tail policy).

All JavaScript numbers are modelled as rationals (the code only ever
does ring operations and comparisons on them); `undefined`/`null` is
modelled as `Option`.
-/

namespace AlphaTabLab

/-- A JavaScript rational-valued coalescing of `a ?? b`. -/
def orElseQ (a b : Option ℚ) : Option ℚ := a.orElse (fun _ => b)

/-- Rectangle as used by the renderer bounds (visualBounds). -/
structure Rect where
  x : ℚ
  y : ℚ
  w : ℚ
  h : ℚ
  deriving DecidableEq, Repr

/-- The slice of an AlphaTab MasterBar reachable from a beat as
`beat.voice.bar.masterBar`: its index, start tick and duration (the
`calcDuration` field models the result of `calculateDuration()` when
that method exists). -/
structure MasterBarRef where
  index : Option ℚ
  start : Option ℚ
  calcDuration : Option ℚ
  duration : Option ℚ
  deriving DecidableEq, Repr

/-- The slice of an AlphaTab Beat that the embedded code reads.
`barIndex` models `beat.voice?.bar?.index` and `masterBar` models
`beat.voice?.bar?.masterBar`; `nextBeat` is the structural successor
link.  Recursive because of `nextBeat`. -/
inductive Beat where
  | mk
      (absolutePlaybackStart : Option ℚ)
      (playbackStart : Option ℚ)
      (playbackDuration : Option ℚ)
      (duration : Option ℚ)
      (barIndex : Option ℚ)
      (masterBar : Option MasterBarRef)
      (nextBeat : Option Beat)

namespace Beat

def absolutePlaybackStart : Beat → Option ℚ
  | .mk a _ _ _ _ _ _ => a

def playbackStart : Beat → Option ℚ
  | .mk _ p _ _ _ _ _ => p

def playbackDuration : Beat → Option ℚ
  | .mk _ _ d _ _ _ _ => d

def duration : Beat → Option ℚ
  | .mk _ _ _ d _ _ _ => d

def barIndex : Beat → Option ℚ
  | .mk _ _ _ _ i _ _ => i

def masterBar : Beat → Option MasterBarRef
  | .mk _ _ _ _ _ m _ => m

def nextBeat : Beat → Option Beat
  | .mk _ _ _ _ _ _ n => n

/-- `beat.voice?.bar?.masterBar?.index` -/
def masterBarIndex (b : Beat) : Option ℚ := b.masterBar.bind (fun m => m.index)

/-- `beat?.voice?.bar?.index ?? beat?.voice?.bar?.masterBar?.index` —
the bar-index coalescing used throughout the overlay and page code. -/
def barIdx (b : Beat) : Option ℚ := orElseQ b.barIndex b.masterBarIndex

end Beat

/-- Result of `api.renderer.boundsLookup.findBeat(beat)`: visual bounds
plus the optional note-anchor `onNotesX` (present iff it is a number). -/
structure BeatBoundsR where
  visualBounds : Option Rect
  onNotesX : Option ℚ
  deriving DecidableEq, Repr

/-- One entry of `tickCache.masterBars`: the owning master bar's
structural index (`mb.masterBar?.index`), the expanded start tick
(`mb.start`) and the duration (`mb.masterBar?.calculateDuration?.()`,
absent when the master bar or the method is missing). -/
structure MBEntry where
  index : Option ℚ
  start : ℚ
  duration : Option ℚ
  deriving DecidableEq, Repr

/-- External collaborators of `MaestroCursor`: the bounds lookup for
beats (`findBeat`), the master-bar bounds of the current beat's master
bar (`findMasterBar`, already composed with `?.visualBounds`), and the
transport playing flag (`api.player?.isPlaying ?? false`). -/
structure CursorEnv where
  findBeat : Beat → Option BeatBoundsR
  findMasterBar : Beat → Option Rect
  isPlaying : Bool

/-- The mutable fields of the `MaestroCursor` class (diagnostic-only
fields `lastDebugUpdate` and the DOM element itself are not modelled;
`transformX`/`transformY`/`elemHeight` stand for the element's current
transform and height, `visible`/`opacity` for its visibility style). -/
structure CursorState where
  currentBeat : Option Beat
  currentNoteX : ℚ
  currentY : ℚ
  currentHeight : ℚ
  currentVbW : ℚ
  nextBeatCenterX : Option ℚ
  beatStart : ℚ
  beatDuration : ℚ
  beatStartToUse : ℚ
  svgRendered : Bool
  lastSvgHeight : ℚ
  lastFinalX : ℚ
  lastFinalY : ℚ
  hasInitialPosition : Bool
  lastLogBeat : ℚ
  visible : Bool
  opacity : ℚ
  transformX : ℚ
  transformY : ℚ
  elemHeight : ℚ

namespace MaestroCursor

/-- cursorWidth = 14 (v3.3 dimensions). -/
def cursorWidth : ℚ := 14

def topOverhang : ℚ := 26

def bottomOverhang : ℚ := 12

def bottomPointBaseShift : ℚ := 2

/-- `show()` — make the element visible. -/
def showEl (s : CursorState) : CursorState :=
  { s with visible := true, opacity := 1 }

/-- `hide()` — hide the element. -/
def hideEl (s : CursorState) : CursorState :=
  { s with visible := false, opacity := 0 }

/-- `applyTransform(x, y, h, snap)` — suppress sub-pixel deltas, else
update the cached final position, the element transform and (when
needed) the SVG.  The `snap` flag only disables a CSS transition on the
DOM element and is not part of the modelled state. -/
def applyTransform (s : CursorState) (x y h : ℚ) : CursorState :=
  if |x - s.lastFinalX| < 1/2 ∧ |y - s.lastFinalY| < 1/2 then s
  else
    let s := { s with lastFinalX := x, lastFinalY := y,
                      transformX := x, transformY := y, elemHeight := h }
    if ¬s.svgRendered ∨ |h - s.lastSvgHeight| > 5 then
      { s with svgRendered := true, lastSvgHeight := h }
    else s

/-- The note-anchor X of a found beat: `onNotesX` when it is a number,
else the visual-bounds center. -/
def anchorX (bb : BeatBoundsR) (vb : Rect) : ℚ :=
  match bb.onNotesX with
  | some nx => nx
  | none => vb.x + vb.w / 2

/-- `setBeat(beat)` — freeze the per-beat state, resolve the structural
`nextBeat` into `nextBeatCenterX` (same row and same bar only) and snap
to the beat-start position. `setBeat(null)` hides the cursor and
returns. -/
def setBeat (env : CursorEnv) (s : CursorState) (beat : Option Beat) : CursorState :=
  match beat with
  | none => hideEl s
  | some b =>
    let bs := (orElseQ b.absolutePlaybackStart b.playbackStart).getD 0
    let s := { s with currentBeat := some b,
                      beatStart := bs,
                      beatDuration := (orElseQ b.playbackDuration b.duration).getD 0,
                      beatStartToUse := bs }
    match env.findBeat b with
    | none => hideEl s
    | some bb =>
      match bb.visualBounds with
      | none => hideEl s
      | some vb =>
        let s := { s with currentNoteX := anchorX bb vb,
                          currentY := vb.y,
                          currentHeight := vb.h,
                          currentVbW := vb.w,
                          nextBeatCenterX := none }
        let s :=
          match b.nextBeat with
          | none => s
          | some nb =>
            match env.findBeat nb with
            | none => s
            | some nbb =>
              match nbb.visualBounds with
              | none => s
              | some nvb =>
                let nx := anchorX nbb nvb
                let sameRow := |nvb.y - s.currentY| < 5
                if sameRow ∧ b.barIdx = nb.barIdx then
                  { s with nextBeatCenterX := some nx }
                else s
        let finalX := s.currentNoteX - cursorWidth / 2
        let totalH := vb.h + topOverhang + bottomOverhang + bottomPointBaseShift
        let finalY := vb.y - topOverhang
        let s := applyTransform s finalX finalY totalH
        showEl { s with hasInitialPosition := true }

/-- `requestSnap()` — clear the frozen next anchor, reset
`beatStartToUse` to the structural beat start and invalidate the cached
final position. -/
def requestSnap (s : CursorState) : CursorState :=
  { s with nextBeatCenterX := none,
           beatStartToUse := s.beatStart,
           lastFinalX := -1,
           lastFinalY := -1 }

/-- The mid-beat fill of `nextBeatCenterX` inside `setTick`: only fills
when the frozen field is still null and the candidate passes the
same-row / same-bar check.  Takes the fields of `this` that the fill
reads (`currentBeat`, `currentY`, `nextBeatCenterX`) and returns the new
value of the field. -/
def fillNextBeatCenterX (env : CursorEnv) (currentBeat : Option Beat)
    (currentY : ℚ) (nextBeatCenterX : Option ℚ)
    (nextBeat : Option Beat) : Option ℚ :=
  match nextBeatCenterX, nextBeat with
  | none, some nb =>
    (match env.findBeat nb with
     | none => none
     | some nbb =>
       match nbb.visualBounds with
       | none => none
       | some nvb =>
         let nx := anchorX nbb nvb
         let sameRow := |nvb.y - currentY| < 5
         let curIdx := (currentBeat.bind Beat.barIndex).orElse
           (fun _ => currentBeat.bind Beat.masterBarIndex)
         let nextIdx := nb.barIdx
         if sameRow ∧ curIdx = nextIdx then some nx else none)
  | cur, _ => cur

/-- `Math.max(0, Math.min(1, p))`. -/
def clamp01 (p : ℚ) : ℚ := max 0 (min 1 p)

/-- The named intermediate values of one `setTick` call, used to state
theorems about the code's local variables. `interpolatedX0` is the
value right after the interpolation assignment, `interpolatedX1` after
the Mode A overshoot guard, `interpolatedX2` after the v4.5 pause
clamp (the final cursor center). -/
structure SetTickTrace where
  progress : ℚ
  walkDistance : ℚ
  interpolatedX0 : ℚ
  interpolatedX1 : ℚ
  interpolatedX2 : ℚ
  finalX : ℚ
  deriving DecidableEq, Repr

/-- `setTick(tick, nextBeat, overrideBeatStart)` — v4.5.  Returns the
new state together with the trace of the computed frame, or `none` when
the malformed-beat guard fires (`!this.currentBeat ||
this.beatDuration <= 0`). -/
def setTick (env : CursorEnv) (s : CursorState) (tick : ℚ)
    (nextBeat : Option Beat) (overrideBeatStart : Option ℚ) :
    CursorState × Option SetTickTrace :=
  match s.currentBeat with
  | none => (s, none)
  | some cb =>
    if s.beatDuration ≤ 0 then (s, none)
    else
      let s := { s with beatStartToUse := overrideBeatStart.getD s.beatStart }
      let s := { s with nextBeatCenterX :=
                   (fillNextBeatCenterX env s.currentBeat s.currentY
                     s.nextBeatCenterX nextBeat) }
      let progress :=
        if 0 < s.beatDuration then clamp01 ((tick - s.beatStartToUse) / s.beatDuration)
        else 0
      let walkDistance :=
        match s.nextBeatCenterX with
        | some nx =>
          if s.currentNoteX < nx then nx - s.currentNoteX
          else
            match env.findMasterBar cb with
            | some vb => (vb.x + vb.w) - s.currentNoteX
            | none => s.currentVbW
        | none =>
          match env.findMasterBar cb with
          | some vb => (vb.x + vb.w) - s.currentNoteX
          | none => s.currentVbW
      let interpolatedX0 := s.currentNoteX + walkDistance * progress
      let interpolatedX1 :=
        match s.nextBeatCenterX with
        | some nx => if s.currentNoteX < nx then min interpolatedX0 nx else interpolatedX0
        | none => interpolatedX0
      let interpolatedX2 :=
        if ¬env.isPlaying ∧ 999/1000 ≤ progress then s.currentNoteX else interpolatedX1
      let finalX := interpolatedX2 - cursorWidth / 2
      let totalH := s.currentHeight + topOverhang + bottomOverhang + bottomPointBaseShift
      let finalY := s.currentY - topOverhang
      let s := applyTransform s finalX finalY totalH
      let s := if s.beatStartToUse ≠ s.lastLogBeat
               then { s with lastLogBeat := s.beatStartToUse } else s
      (s, some { progress := progress, walkDistance := walkDistance,
                 interpolatedX0 := interpolatedX0,
                 interpolatedX1 := interpolatedX1,
                 interpolatedX2 := interpolatedX2,
                 finalX := finalX })

end MaestroCursor

/-! ## Labs page v5.30 — the playerPositionChanged engine
(src/unnamed/part_002, lines 252-424) -/

/-- `isSameBeat(a, b)` — structural beat identity: equal
`absolutePlaybackStart` and equal owning master-bar index; false when
either side is missing. -/
def isSameBeat : Option Beat → Option Beat → Bool
  | some a, some b =>
      a.absolutePlaybackStart == b.absolutePlaybackStart &&
      a.masterBarIndex == b.masterBarIndex
  | _, _ => false

/-- `beatBounds` entry of the visual traversal (`beatBounds.beat`). -/
structure BeatBoundsB where
  beat : Option Beat

/-- `voiceBounds` entry (`voiceBounds.beats`). -/
structure VoiceBoundsB where
  beats : List BeatBoundsB

/-- `barBounds` entry (`barBounds.voices`). -/
structure BarBoundsB where
  voices : List VoiceBoundsB

/-- A MasterBarBounds of `staffSystems[..].bars`: `masterBarIndex`
models `mbb?.masterBar?.index`, `index` models `mbb?.index`. -/
structure MasterBarBoundsB where
  masterBarIndex : Option ℚ
  index : Option ℚ
  bars : List BarBoundsB

/-- One staff system (`sys.bars`). -/
structure SystemB where
  bars : List MasterBarBoundsB

/-- External state read by the position-changed handler: the loop flag
ref, the playback range, the tick cache (`findBeat` with the page's
fixed track-index set, plus the `masterBars` occurrence table) and the
renderer's `staffSystems`. -/
structure PageEnv where
  cursorAttached : Bool
  loopEnabled : Bool
  playbackRange : Option (ℚ × ℚ)
  hasTickCache : Bool
  findBeat : ℚ → Option Beat
  masterBars : List MBEntry
  systems : List SystemB

/-- The stable per-beat refs of the page (`lastTickRef`,
`stableCurBeatRef`, `stableExpandedBeatStartRef`, `stableNextBeatRef`). -/
structure PageState where
  lastTick : Option ℚ
  stableCurBeat : Option Beat
  stableExpandedBeatStart : ℚ
  stableNextBeat : Option Beat

/-- A playerPositionChanged event (`e.currentTick ?? e.tickPosition`). -/
structure PEvent where
  currentTick : Option ℚ
  tickPosition : Option ℚ

/-- SAFETY_MARGIN = 120 ticks (~1/16 note at 480 PPQ). -/
def SAFETY_MARGIN : ℚ := 120

/-- Owner information produced by step 1 of the expanded-beat
resolution: structural index, occurrence number and expanded start of
the master-bar occurrence containing the tick. -/
structure OwnerInfo where
  mbIdx : ℚ
  occurrence : ℕ
  expandedStart : ℚ
  deriving DecidableEq, Repr

/-- Step 1: walk `tickCache.masterBars` counting occurrences per
structural index and remember the (last) entry whose
`[start, start + calculateDuration())` contains the tick. -/
def findOwner (masterBars : List MBEntry) (tick : ℚ) : Option OwnerInfo :=
  (masterBars.foldl
    (fun (acc : (ℚ → ℕ) × Option OwnerInfo) mb =>
      match mb.index with
      | none => acc
      | some idx =>
        let occ := acc.1 idx
        let counts := fun j => if j = idx then occ + 1 else acc.1 j
        let dur := mb.duration.getD 0
        let owner :=
          if mb.start ≤ tick ∧ tick < mb.start + dur then
            some ⟨idx, occ, mb.start⟩
          else acc.2
        (counts, owner))
    (fun _ => 0, none)).2

/-- Step 2: walk `staffSystems` in layout order counting visual
occurrences per index; the first visual instance matching the owner's
(index, occurrence) pair is the target (the source breaks out of both
loops there, so counting after the hit is irrelevant). -/
def findVisualOccurrence (systems : List SystemB) (ownerIdx : ℚ) (ownerOcc : ℕ) :
    Option MasterBarBoundsB :=
  (systems.foldl
    (fun acc sys =>
      sys.bars.foldl
        (fun (acc : (ℚ → ℕ) × Option MasterBarBoundsB) mbb =>
          match acc.2 with
          | some _ => acc
          | none =>
            match orElseQ mbb.masterBarIndex mbb.index with
            | none => acc
            | some vbIdx =>
              let vOcc := acc.1 vbIdx
              let counts := fun j => if j = vbIdx then vOcc + 1 else acc.1 j
              if vbIdx = ownerIdx ∧ vOcc = ownerOcc then (counts, some mbb)
              else (counts, none))
        acc)
    (fun _ => 0, none)).2

/-- Step 3: inside the matched visual master bar, the first beat whose
expanded `[ownerStart + playbackStart, + playbackDuration)` interval
contains the tick. -/
def findBeatInMbb (ownerStart tick : ℚ) (mbb : MasterBarBoundsB) : Option Beat :=
  mbb.bars.findSome? fun bar =>
    bar.voices.findSome? fun v =>
      v.beats.findSome? fun bb =>
        match bb.beat with
        | none => none
        | some beat =>
          let bOffset := beat.playbackStart.getD 0
          let bDur := (orElseQ beat.playbackDuration beat.duration).getD 0
          let bStart := ownerStart + bOffset
          if bStart ≤ tick ∧ tick < bStart + bDur then some beat else none

/-- Expanded beat resolution (steps 1-3 of the handler), with the
structurally-biased `findBeat` fallback (step 4). `none` models the
handler's early return when even the fallback finds no beat. -/
def resolveCurBeat (env : PageEnv) (tick : ℚ) : Option Beat :=
  let traversal :=
    if env.masterBars = [] then none
    else
      match findOwner env.masterBars tick with
      | none => none
      | some owner =>
        match findVisualOccurrence env.systems owner.mbIdx owner.occurrence with
        | none => none
        | some mbb => findBeatInMbb owner.expandedStart tick mbb
  match traversal with
  | some b => some b
  | none => env.findBeat tick

/-- Backward scan body: `for (let t = tick - 1; t >= tick - 2000; t--)`
— on the first tick resolving to no beat or a different beat, the
frozen expanded beat start is `t + 1`; `none` when the bounded loop
finishes without a break. -/
def backScanAux (fb : ℚ → Option Beat) (cur : Beat) : ℕ → ℚ → Option ℚ
  | 0, _ => none
  | n + 1, t =>
    match fb t with
    | none => some (t + 1)
    | some b =>
      if isSameBeat (some b) (some cur) then backScanAux fb cur n (t - 1)
      else some (t + 1)

/-- Backward scan: frozen expanded beat start (initial value `tick`
when the 2000-tick bound is exhausted without a boundary). -/
def backScan (fb : ℚ → Option Beat) (cur : Beat) (tick : ℚ) : ℚ :=
  (backScanAux fb cur 2000 (tick - 1)).getD tick

/-- Forward scan body: `for (let t = start + 1; t <= start + 4000; t++)`
— first tick resolving to a beat with a different identity; ticks with
no beat are skipped (no break). -/
def fwdScanAux (fb : ℚ → Option Beat) (cur : Beat) : ℕ → ℚ → Option Beat
  | 0, _ => none
  | n + 1, t =>
    match fb t with
    | none => fwdScanAux fb cur n (t + 1)
    | some b =>
      if isSameBeat (some b) (some cur) then fwdScanAux fb cur n (t + 1)
      else some b

/-- Forward scan: the next beat occurrence, `none` meaning Mode B. -/
def fwdScan (fb : ℚ → Option Beat) (cur : Beat) (start : ℚ) : Option Beat :=
  fwdScanAux fb cur 4000 (start + 1)

/-- What one handler invocation did: which early return fired, the
transport assignment, the cursor commands, whether a jump was detected,
the resolved beat and whether the gated scans ran. -/
structure HandlerResult where
  wrapped : Bool
  setPosition : Option ℚ
  requestSnap : Bool
  jumped : Bool
  resolvedBeat : Option Beat
  scansRan : Bool
  setBeatCmd : Option Beat
  setTickCmd : Option (ℚ × Option Beat × ℚ)

/-- The all-quiet handler result (early returns with no effect). -/
def noResult : HandlerResult :=
  { wrapped := false, setPosition := none, requestSnap := false,
    jumped := false, resolvedBeat := none, scansRan := false,
    setBeatCmd := none, setTickCmd := none }

/-- Jump detection of the handler: a tick delta over 2000 against
`lastTickRef` is a discontinuity (whammy re-sync, repeat wrap, seek). -/
def pageJumped (st : PageState) (tick : ℚ) : Bool :=
  match st.lastTick with
  | some lt => decide (2000 < |tick - lt|)
  | none => false

/-- The handler body after the loop-boundary enforcer: jump detection,
expanded beat resolution, the `isSameBeat` beat-entry gate, the two
bounded scans (gated), and the per-frame 3-arg `setTick` call. -/
def pageMain (env : PageEnv) (st : PageState) (tick : ℚ) :
    PageState × HandlerResult :=
  let jumped := pageJumped st tick
  let st := { st with lastTick := some tick }
  let st :=
    if jumped then { st with stableCurBeat := none, stableExpandedBeatStart := 0 }
    else st
  if env.hasTickCache = false then
    (st, { noResult with jumped := jumped, requestSnap := jumped })
  else
    match resolveCurBeat env tick with
    | none => (st, { noResult with jumped := jumped, requestSnap := jumped })
    | some curBeat =>
      if isSameBeat (some curBeat) st.stableCurBeat = false ∨ jumped = true then
        let st := { st with stableCurBeat := some curBeat }
        let ebs := backScan env.findBeat curBeat tick
        let st := { st with stableExpandedBeatStart := ebs }
        let nb := fwdScan env.findBeat curBeat ebs
        let st := { st with stableNextBeat := nb }
        (st, { wrapped := false, setPosition := none, requestSnap := jumped,
               jumped := jumped, resolvedBeat := some curBeat, scansRan := true,
               setBeatCmd := some curBeat,
               setTickCmd := some (tick, nb, ebs) })
      else
        (st, { wrapped := false, setPosition := none, requestSnap := jumped,
               jumped := jumped, resolvedBeat := some curBeat, scansRan := false,
               setBeatCmd := none,
               setTickCmd := some (tick, st.stableNextBeat, st.stableExpandedBeatStart) })

/-- The full `playerPositionChanged` handler: cursor-attached guard,
tick extraction, the loop boundary enforcer (wrap and early-return once
`tickRaw >= endTick - SAFETY_MARGIN`), then `pageMain`. -/
def pagePositionChanged (env : PageEnv) (st : PageState) (e : PEvent) :
    PageState × HandlerResult :=
  if env.cursorAttached = false then (st, noResult)
  else
    match orElseQ e.currentTick e.tickPosition with
    | none => (st, noResult)
    | some tickRaw =>
      match env.loopEnabled, env.playbackRange with
      | true, some r =>
        if r.2 - SAFETY_MARGIN ≤ tickRaw then
          (st, { noResult with wrapped := true, requestSnap := true,
                               setPosition := some r.1 })
        else pageMain env st tickRaw
      | true, none => pageMain env st tickRaw
      | false, _ => pageMain env st tickRaw

/-- The lastValid scan of `enableManualLoop`: from `endExclusive - 1`
down to `start`, the first tick where `findBeat` resolves; defaults to
`start`.  Fuel-bounded (ticks are integral, so the ceiling bound covers
the whole loop). -/
def lastValidAux (fb : ℚ → Option Beat) (start : ℚ) : ℕ → ℚ → Option ℚ
  | 0, _ => none
  | n + 1, t =>
    if t < start then none
    else
      match fb t with
      | some _ => some t
      | none => lastValidAux fb start n (t - 1)

/-- `lastValid` of `enableManualLoop`. -/
def lastValid (fb : ℚ → Option Beat) (start endExclusive : ℚ) : ℚ :=
  (lastValidAux fb start ((⌈endExclusive - start⌉).toNat + 1) (endExclusive - 1)).getD start

/-- The per-event handler installed by `enableManualLoop`: clamp below
`start`, wrap once the tick reaches `lastValid`.  Returns the
`tickPosition` assignment, if any. -/
def manualLoopHandler (start lastValidTick : ℚ) (e : PEvent) : Option ℚ :=
  match orElseQ e.currentTick e.tickPosition with
  | none => none
  | some tick =>
    if tick < start then some start
    else if lastValidTick ≤ tick then some start
    else none

/-! ## BeatCustomLoopOverlay v1.7.5 — gesture machine
(src/src/components/BeatCustomLoopOverlay.tsx) -/

/-- A mouse event as consumed by the overlay handlers. -/
structure MouseEv where
  clientX : ℚ
  clientY : ℚ

/-- External collaborators of the beat overlay.  `resolve` stands for
`resolveBeatWithX` (the geometric pointer-to-beat resolution, a pure
function of the renderer geometry, treated as part of the environment
since the gesture logic only consumes its result); `getBeatStart` is
`tickCache.getBeatStart`.  The highlight-rect painting (`setRects`,
`buildRects`, `buildBarRects`) is presentation-side and not part of the
modelled commit outcome. -/
structure OverlayEnv where
  loopEnabled : Bool
  hasTickCache : Bool
  getBeatStart : Beat → ℚ
  masterBars : List MBEntry
  resolve : MouseEv → Option (Beat × ℚ)

/-- `tickOf(beat)` — expanded start via `tickCache.getBeatStart`,
falling back to the structural `absolutePlaybackStart`. -/
def tickOf (env : OverlayEnv) (b : Beat) : ℚ :=
  if env.hasTickCache then env.getBeatStart b
  else b.absolutePlaybackStart.getD 0

/-- `durOf(b)` — `b?.playbackDuration ?? b?.duration ?? 0`. -/
def durOf (b : Beat) : ℚ := (orElseQ b.playbackDuration b.duration).getD 0

/-- `loHi(a, b)` — order two beats by expanded tick. -/
def loHi (env : OverlayEnv) (a b : Beat) : Beat × Beat :=
  if tickOf env a ≤ tickOf env b then (a, b) else (b, a)

/-- `getExpandedBarRange(tick, beat?)` — repeat-safe containing bar
range from `tickCache.masterBars`, with the structural fallback from
the beat's own master bar. -/
def getExpandedBarRange (env : OverlayEnv) (tick : ℚ) (beat : Option Beat) :
    Option (ℚ × ℚ) :=
  let primary :=
    if env.hasTickCache ∧ env.masterBars ≠ [] then
      env.masterBars.findSome? fun mb =>
        let dur := mb.duration.getD 0
        if 0 < dur ∧ mb.start ≤ tick ∧ tick < mb.start + dur then
          some (mb.start, mb.start + dur)
        else none
    else none
  match primary with
  | some r => some r
  | none =>
    match beat with
    | none => none
    | some b =>
      match b.masterBar with
      | none => none
      | some mb =>
        let start := mb.start.getD 0
        let dur := (orElseQ mb.calcDuration mb.duration).getD 1920
        if 0 < dur then some (start, start + dur) else none

/-- `commitBarSnap(beat)` — the committed full-bar playback range, or
`none` when the range / bar-index helpers fail (the caller then falls
through to the beat-level commit). -/
def commitBarSnap (env : OverlayEnv) (b : Beat) : Option (ℚ × ℚ) :=
  match getExpandedBarRange env (tickOf env b) (some b), b.barIdx with
  | some r, some _ => some r
  | _, _ => none

/-- The overlay's gesture refs (`isDragging`, `startBeat`, `endBeat`,
`downXRef`, `downYRef`, `downTickRef`, `beatCrossedRef`). -/
structure GestureState where
  isDragging : Bool
  startBeat : Option Beat
  endBeat : Option Beat
  downX : ℚ
  downY : ℚ
  downTick : Option ℚ
  beatCrossed : Bool

/-- Initial gesture state (all refs at their declaration defaults). -/
def initGesture : GestureState :=
  { isDragging := false, startBeat := none, endBeat := none,
    downX := 0, downY := 0, downTick := none, beatCrossed := false }

/-- `onDown` — record the press anchors; paints nothing (v1.7.5). -/
def onDown (env : OverlayEnv) (s : GestureState) (e : MouseEv) : GestureState :=
  if env.loopEnabled = false then s
  else
    match env.resolve e with
    | none => s
    | some (b, _) =>
      { isDragging := true, startBeat := some b, endBeat := some b,
        downX := e.clientX, downY := e.clientY,
        downTick := some (tickOf env b), beatCrossed := false }

/-- `onMove` — track the current beat and flip `beatCrossed` as soon as
a move resolves a tick different from the press tick. -/
def onMove (env : OverlayEnv) (s : GestureState) (e : MouseEv) : GestureState :=
  match s.isDragging, s.startBeat with
  | true, some _ =>
    (match env.resolve e with
     | none => s
     | some (b, _) =>
       let s := { s with endBeat := some b }
       let curTick := tickOf env b
       match s.downTick with
       | some d => if curTick ≠ d then { s with beatCrossed := true } else s
       | none => s)
  | _, _ => s

/-- What a pointer release committed. -/
inductive CommitOutcome where
  | none
  | bar (startTick endTick : ℚ)
  | beatLevel (startTick endTick : ℚ)
  deriving DecidableEq, Repr

/-- `onUp` — sole commit authority: bar-snap when `beatCrossed` never
flipped (falling through to beat-level when the bar-snap helpers fail),
beat-level commit otherwise.  The pixel distance is computed in the
source but no longer gates the decision (v1.7.5). -/
def onUp (env : OverlayEnv) (s : GestureState) :
    GestureState × CommitOutcome :=
  match s.isDragging with
  | false => (s, .none)
  | true =>
    let s := { s with isDragging := false }
    match s.startBeat with
    | none => (s, .none)
    | some sb =>
      match s.beatCrossed, commitBarSnap env sb with
      | false, some r => (s, .bar r.1 r.2)
      | _, _ =>
        let eb := s.endBeat.getD sb
        let lohi := loHi env sb eb
        let startTick := tickOf env lohi.1
        let endTick := tickOf env lohi.2 + durOf lohi.2
        (s, .beatLevel startTick endTick)

/-- One full press-move-release gesture. -/
def runGesture (env : OverlayEnv) (down : MouseEv) (moves : List MouseEv) :
    CommitOutcome :=
  (onUp env (moves.foldl (onMove env) (onDown env initGesture down))).2

/-! ## CustomLoopOverlay — timeline expander and declarative loop tail
(src/src/components/CustomLoopOverlay.tsx) -/

/-- `resolveExpandedBarStart(tickCache, visualBarIndex, refTick)` — the
TimelineExpander: among all occurrences of the structural index, the
start closest (absolute distance) to the reference, ties to the
first-scanned; `null` when no occurrence exists. -/
def resolveExpandedBarStart (masterBars : List MBEntry)
    (visualBarIndex refTick : ℚ) : Option ℚ :=
  let instances := masterBars.filter (fun mb => mb.index == some visualBarIndex)
  match instances with
  | [] => none
  | h :: t =>
    some ((t.foldl
      (fun prev curr =>
        if |curr.start - refTick| < |prev.start - refTick| then curr else prev)
      h).start)

/-- A committed loop selection (expanded ticks). -/
structure LoopSelectionR where
  startTick : ℚ
  endTick : ℚ

/-- Environment of `applyLoopSelection`: tick cache presence, beat
lookup, and whether the api exposes a `playbackRange` field. -/
structure ApplyEnv where
  hasTickCache : Bool
  findBeat : ℚ → Option Beat
  hasPlaybackRangeField : Bool

/-- The engine-visible effects of `applyLoopSelection`. -/
structure ApplyResult where
  derivedLoopEnd : ℚ
  playbackRange : Option (ℚ × ℚ)
  tickPosition : ℚ
  isLooping : Bool

/-- The 10-tick-step backward scan of `applyLoopSelection`: from
`endTick - 1` down while `t >= startTick`, the first resolvable beat. -/
def scanBackBy10 (fb : ℚ → Option Beat) (startTick : ℚ) : ℕ → ℚ → Option Beat
  | 0, _ => none
  | n + 1, t =>
    if t < startTick then none
    else
      match fb t with
      | some b => some b
      | none => scanBackBy10 fb startTick n (t - 10)

/-- The 1-tick-step identity scan of `applyLoopSelection`: from
`endTick - 2` down while `t >= startTick`, one past the first tick not
resolving to the same beat. -/
def scanBeatStart (fb : ℚ → Option Beat) (startTick : ℚ) (cur : Beat) :
    ℕ → ℚ → Option ℚ
  | 0, _ => none
  | n + 1, t =>
    if t < startTick then none
    else
      match fb t with
      | none => some (t + 1)
      | some b =>
        if isSameBeat (some b) (some cur) then scanBeatStart fb startTick cur n (t - 1)
        else some (t + 1)

/-- `applyLoopSelection(selection)` — derive the true loop end from the
last resolvable beat (rest/tied-note tolerant), then delegate
`[startTick, loopEnd + 1)` to the engine: one tick past the nominal
end. -/
def applyLoopSelection (env : ApplyEnv) (loopEnabled : Bool)
    (sel : LoopSelectionR) : ApplyResult :=
  let fuel := (⌈sel.endTick - sel.startTick⌉).toNat + 1
  let loopEnd :=
    if env.hasTickCache then
      match scanBackBy10 env.findBeat sel.startTick fuel (sel.endTick - 1) with
      | some curBeat =>
        let ebs := (scanBeatStart env.findBeat sel.startTick curBeat fuel
                      (sel.endTick - 2)).getD (sel.endTick - 1)
        let beatDur := (orElseQ curBeat.playbackDuration curBeat.duration).getD 0
        ebs + beatDur
      | none => sel.endTick
    else sel.endTick
  { derivedLoopEnd := loopEnd,
    playbackRange :=
      if env.hasPlaybackRangeField then some (sel.startTick, loopEnd + 1) else none,
    tickPosition := sel.startTick,
    isLooping := loopEnabled }

/-! ## Concrete inputs used by witnesses and counterexamples -/

/-- The cursor state right after construction (the off-screen initial
transform is modelled as 0). -/
def baseCursorState : CursorState :=
  { currentBeat := none, currentNoteX := 0, currentY := 0, currentHeight := 0,
    currentVbW := 0, nextBeatCenterX := none, beatStart := 0, beatDuration := 0,
    beatStartToUse := 0, svgRendered := false, lastSvgHeight := 0,
    lastFinalX := -1, lastFinalY := -1, hasInitialPosition := false,
    lastLogBeat := -1, visible := false, opacity := 0,
    transformX := 0, transformY := 0, elemHeight := 0 }

/-- A cursor environment with no renderer geometry, transport stopped. -/
def emptyCursorEnv : CursorEnv :=
  { findBeat := fun _ => none, findMasterBar := fun _ => none, isPlaying := false }

/-- A beat of structural bar 5: expanded occurrence start 9600,
duration 480 ticks, no successor. -/
def demoBeat : Beat :=
  .mk (some 9600) (some 0) (some 480) none (some 5)
    (some { index := some 5, start := some 9600, calcDuration := some 1920,
            duration := none })
    none

/-- A one-entry occurrence table: structural bar 5 at expanded start
9600, duration 1920. -/
def demoMasterBars : List MBEntry :=
  [{ index := some 5, start := 9600, duration := some 1920 }]

/-- Page environment with loop mode on and committed range
[9600, 11520). -/
def demoPageEnv : PageEnv :=
  { cursorAttached := true, loopEnabled := true,
    playbackRange := some (9600, 11520), hasTickCache := false,
    findBeat := fun _ => none, masterBars := [], systems := [] }

/-- The page refs at their initial values. -/
def initPageState : PageState :=
  { lastTick := none, stableCurBeat := none, stableExpandedBeatStart := 0,
    stableNextBeat := none }

/-- Overlay environment in which every pointer position resolves to
`demoBeat` (expanded start 9600). -/
def demoOverlayEnv : OverlayEnv :=
  { loopEnabled := true, hasTickCache := true,
    getBeatStart := fun _ => 9600,
    masterBars := demoMasterBars,
    resolve := fun _ => some (demoBeat, 100) }

/-- Structural bar 5 at expanded starts 9600, 19200, 28800 (the C4
scenario). -/
def scenarioBars : List MBEntry :=
  [{ index := some 5, start := 9600, duration := some 1920 },
   { index := some 5, start := 19200, duration := some 1920 },
   { index := some 5, start := 28800, duration := some 1920 }]

/-! ## Helper lemmas -/

theorem applyTransform_nextBeatCenterX (s : CursorState) (x y h : ℚ) :
    (MaestroCursor.applyTransform s x y h).nextBeatCenterX = s.nextBeatCenterX := by
  unfold MaestroCursor.applyTransform
  split
  · rfl
  · dsimp only
    split <;> rfl

theorem fillNextBeatCenterX_some (env : CursorEnv) (cbo : Option Beat)
    (y : ℚ) (v : ℚ) (nb : Option Beat) :
    MaestroCursor.fillNextBeatCenterX env cbo y (some v) nb = some v := rfl

theorem setTick_preserves_nextBeatCenterX (env : CursorEnv) (s : CursorState)
    (tick : ℚ) (nb : Option Beat) (ov : Option ℚ) (v : ℚ)
    (h : s.nextBeatCenterX = some v) :
    (MaestroCursor.setTick env s tick nb ov).1.nextBeatCenterX = some v := by
  unfold MaestroCursor.setTick
  cases hcb : s.currentBeat with
  | none => exact h
  | some cb =>
    dsimp only
    split
    · exact h
    · rw [h]
      dsimp only
      simp only [apply_ite (fun st : CursorState => st.nextBeatCenterX),
                 applyTransform_nextBeatCenterX]
      simp [fillNextBeatCenterX_some]

/-! ## Claims -/

/-- C9: if setTick runs while the current beat is malformed (no current
beat, or a beat duration of zero or negative), the call is a no-op
frame: the state (transform, visibility, frozen per-beat fields) is
returned unchanged and no frame trace is produced. -/
theorem setTick_malformed_noop (env : CursorEnv) (s : CursorState)
    (tick : ℚ) (nb : Option Beat) (ov : Option ℚ)
    (h : s.currentBeat = none ∨ s.beatDuration ≤ 0) :
    MaestroCursor.setTick env s tick nb ov = (s, none) := by
  unfold MaestroCursor.setTick
  cases hcb : s.currentBeat with
  | none => rfl
  | some cb =>
    rcases h with h | h
    · exact absurd (hcb ▸ h) (by simp)
    · simp [h]

/-- C9 witness: a state with zero beat duration and no current beat is
left untouched. -/
theorem setTick_malformed_noop_witness :
    MaestroCursor.setTick emptyCursorEnv baseCursorState 100 none none =
      (baseCursorState, none) :=
  setTick_malformed_noop emptyCursorEnv baseCursorState 100 none none (Or.inl rfl)

/-- C10: setBeat(null) hides the indicator (visibility hidden, opacity
0) and changes nothing else; a subsequent setTick call produces exactly
the frame it would have produced from the unhidden state (it still
interpolates from the previously frozen beat state). -/
theorem setBeat_null_hides_only (env : CursorEnv) (s : CursorState) :
    MaestroCursor.setBeat env s none = { s with visible := false, opacity := 0 } ∧
    ∀ tick nb ov,
      (MaestroCursor.setTick env { s with visible := false, opacity := 0 } tick nb ov).2 =
        (MaestroCursor.setTick env s tick nb ov).2 := by
  refine ⟨rfl, ?_⟩
  intro tick nb ov
  unfold MaestroCursor.setTick
  cases hcb : s.currentBeat with
  | none => rfl
  | some cb =>
    dsimp only
    by_cases hd : s.beatDuration ≤ 0
    · rw [if_pos hd, if_pos hd]
    · rw [if_neg hd, if_neg hd]

/-- C7: between a `setBeat` call and the next `setBeat`/`requestSnap`,
the frozen `nextBeatCenterX` can only transition from null to non-null:
once a value is established, any sequence of `setTick` calls leaves it
unchanged (`setTick` fills only when the field is still null and never
clears an established value), so the walk mode chosen at beat entry
persists for the whole beat. -/
theorem nextBeatCenterX_fill_never_clear (env : CursorEnv)
    (calls : List (ℚ × Option Beat × Option ℚ)) (s : CursorState) (v : ℚ)
    (h : s.nextBeatCenterX = some v) :
    (calls.foldl
        (fun st c => (MaestroCursor.setTick env st c.1 c.2.1 c.2.2).1)
        s).nextBeatCenterX = some v := by
  induction calls generalizing s with
  | nil => exact h
  | cons c rest ih =>
    exact ih _ (setTick_preserves_nextBeatCenterX env s c.1 c.2.1 c.2.2 v h)

/-- C7 witness: a frozen anchor of 250 survives two subsequent setTick
calls unchanged. -/
theorem nextBeatCenterX_fill_never_clear_witness :
    (([(100, none, none), (200, none, none)] :
        List (ℚ × Option Beat × Option ℚ)).foldl
        (fun st c => (MaestroCursor.setTick emptyCursorEnv st c.1 c.2.1 c.2.2).1)
        { baseCursorState with nextBeatCenterX := some 250 }).nextBeatCenterX
      = some 250 :=
  nextBeatCenterX_fill_never_clear emptyCursorEnv _ _ 250 rfl

/-- pageMain (everything after the loop boundary enforcer) never wraps
and never assigns the transport position. -/
theorem pageMain_no_wrap (env : PageEnv) (st : PageState) (tick : ℚ) :
    (pageMain env st tick).2.wrapped = false ∧
    (pageMain env st tick).2.setPosition = none := by
  unfold pageMain
  dsimp only
  repeat first
  | exact ⟨rfl, rfl⟩
  | split

/-- With loop mode enabled and a committed playback range, the handler
takes the wrap early-return exactly when the incoming tick reaches
`endTick - SAFETY_MARGIN`, and the wrap target is the committed start. -/
theorem wrap_iff_margin (env : PageEnv) (st : PageState) (e : PEvent)
    (start endT tick : ℚ)
    (hcur : env.cursorAttached = true)
    (hloop : env.loopEnabled = true)
    (hrange : env.playbackRange = some (start, endT))
    (htick : orElseQ e.currentTick e.tickPosition = some tick) :
    ((pagePositionChanged env st e).2.wrapped = true ↔
        endT - SAFETY_MARGIN ≤ tick) ∧
    ((pagePositionChanged env st e).2.wrapped = true →
        (pagePositionChanged env st e).2.setPosition = some start) := by
  have hq := pageMain_no_wrap env st tick
  simp only [pagePositionChanged, hcur, htick, hloop, hrange]
  norm_num
  split_ifs with hw
  · exact ⟨⟨fun _ => hw, fun _ => rfl⟩, fun _ => rfl⟩
  · refine ⟨⟨fun hc => ?_, fun hle => absurd hle hw⟩, fun hc => ?_⟩
    · rw [hq.1] at hc; exact absurd hc (by simp)
    · rw [hq.1] at hc; exact absurd hc (by simp)

/-- C2 counterexample: for the manual-wrap loop [9600, 11520), a tick
of 11519 already wraps the transport back to 9600 (the enforcer fires
at any tick at or above 11400 = end − SAFETY_MARGIN), contradicting the
claim's scenario that tick 11519 causes no wrap. -/
theorem manualWrap_at_11519_cex :
    (pagePositionChanged demoPageEnv initPageState
        { currentTick := some 11519, tickPosition := none }).2.wrapped = true ∧
    (pagePositionChanged demoPageEnv initPageState
        { currentTick := some 11519, tickPosition := none }).2.setPosition
      = some 9600 := by
  constructor <;>
    norm_num [pagePositionChanged, demoPageEnv, initPageState, orElseQ, SAFETY_MARGIN,
      noResult]

/-- C2 amended: under the manual wrap policy the boundary handler
forces the transport back to the loop start exactly when the incoming
tick is ≥ the loop end minus the 120-tick safety margin; for the loop
[9600, 11520) this boundary is 11400, so ticks 11400, 11519 and 11520
all reset the transport to 9600, while 11399 does not wrap. -/
theorem manualWrapMarginBoundary (env : PageEnv) (st : PageState) (e : PEvent)
    (start endT tick : ℚ)
    (hcur : env.cursorAttached = true)
    (hloop : env.loopEnabled = true)
    (hrange : env.playbackRange = some (start, endT))
    (htick : orElseQ e.currentTick e.tickPosition = some tick) :
    ((pagePositionChanged env st e).2.wrapped = true ↔
        endT - SAFETY_MARGIN ≤ tick) ∧
    ((pagePositionChanged env st e).2.wrapped = true →
        (pagePositionChanged env st e).2.setPosition = some start) :=
  wrap_iff_margin env st e start endT tick hcur hloop hrange htick

/-- C2 amended witness: at tick 11400 the enforcer wraps to 9600, at
tick 11399 it does not. -/
theorem manualWrapMarginBoundary_witness :
    (pagePositionChanged demoPageEnv initPageState
        { currentTick := some 11400, tickPosition := none }).2.wrapped = true ∧
    (pagePositionChanged demoPageEnv initPageState
        { currentTick := some 11400, tickPosition := none }).2.setPosition
      = some 9600 ∧
    (pagePositionChanged demoPageEnv initPageState
        { currentTick := some 11399, tickPosition := none }).2.wrapped = false := by
  have h := manualWrapMarginBoundary demoPageEnv initPageState
    { currentTick := some 11400, tickPosition := none } 9600 11520 11400
    rfl rfl rfl rfl
  have h39 := manualWrapMarginBoundary demoPageEnv initPageState
    { currentTick := some 11399, tickPosition := none } 9600 11520 11399
    rfl rfl rfl rfl
  have hw : (pagePositionChanged demoPageEnv initPageState
      { currentTick := some 11400, tickPosition := none }).2.wrapped = true :=
    h.1.mpr (by norm_num [SAFETY_MARGIN])
  refine ⟨hw, h.2 hw, ?_⟩
  by_contra hc
  have : (11520 : ℚ) - SAFETY_MARGIN ≤ 11399 :=
    h39.1.mp (by simpa using Bool.of_not_eq_false hc)
  norm_num [SAFETY_MARGIN] at this

/-- C1 counterexample: a clean-click gesture commits the full bar
[9600, 11520) as the loop selection, yet the margin policy wraps the
transport back to the start already at tick 11400 < 11520 — the
effective playback end enforced by the wrap policy is 120 ticks below
the committed selection end, so the margin policy does shorten the loop
below the committed end. -/
theorem loopMarginShortens_cex :
    runGesture demoOverlayEnv ⟨50, 50⟩ [] = CommitOutcome.bar 9600 11520 ∧
    (pagePositionChanged demoPageEnv initPageState
        { currentTick := some 11400, tickPosition := none }).2.wrapped = true ∧
    (pagePositionChanged demoPageEnv initPageState
        { currentTick := some 11400, tickPosition := none }).2.setPosition
      = some 9600 ∧
    (11400 : ℚ) < 11520 := by
  refine ⟨?_, ?_, ?_, by norm_num⟩
  · norm_num [runGesture, onDown, onMove, onUp, commitBarSnap, getExpandedBarRange,
      tickOf, demoOverlayEnv, demoBeat, demoMasterBars, initGesture, Beat.barIdx,
      Beat.barIndex, Beat.masterBarIndex, Beat.masterBar, orElseQ, List.findSome?]
  · norm_num [pagePositionChanged, demoPageEnv, initPageState, orElseQ, SAFETY_MARGIN,
      noResult]
  · norm_num [pagePositionChanged, demoPageEnv, initPageState, orElseQ, SAFETY_MARGIN,
      noResult]

/-- C1 amended: the declarative policy (applyLoopSelection) delegates
the range to the engine extended one tick past the derived nominal end,
and the margin policy never shortens the loop below the committed end
minus the 120-tick safety margin: a wrap can only fire at ticks ≥
end − SAFETY_MARGIN (and sends the transport to the committed start),
so the effective playback end is end − 120 — within the safety margin
of, but possibly below, the committed selection end. -/
theorem loopTailAndMarginPolicy (env : PageEnv) (st : PageState) (e : PEvent)
    (start endT tick : ℚ)
    (hcur : env.cursorAttached = true)
    (hloop : env.loopEnabled = true)
    (hrange : env.playbackRange = some (start, endT))
    (htick : orElseQ e.currentTick e.tickPosition = some tick) :
    ((pagePositionChanged env st e).2.wrapped = true →
        endT - SAFETY_MARGIN ≤ tick) ∧
    ((pagePositionChanged env st e).2.wrapped = true →
        (pagePositionChanged env st e).2.setPosition = some start) ∧
    (∀ (aenv : ApplyEnv) (le : Bool) (sel : LoopSelectionR),
        aenv.hasPlaybackRangeField = true →
        (applyLoopSelection aenv le sel).playbackRange =
          some (sel.startTick, (applyLoopSelection aenv le sel).derivedLoopEnd + 1)) := by
  have h := wrap_iff_margin env st e start endT tick hcur hloop hrange htick
  refine ⟨h.1.mp, h.2, ?_⟩
  intro aenv le sel ha
  unfold applyLoopSelection
  simp only [ha]
  rfl

/-- C1 amended witness: instantiated at the committed loop
[9600, 11520) and tick 11400. -/
theorem loopTailAndMarginPolicy_witness :
    ((11520 : ℚ) - SAFETY_MARGIN ≤ 11400) ∧
    (applyLoopSelection
        { hasTickCache := false, findBeat := fun _ => none,
          hasPlaybackRangeField := true } true
        { startTick := 9600, endTick := 11520 }).playbackRange
      = some (9600, 11521) := by
  have h := loopTailAndMarginPolicy demoPageEnv initPageState
    { currentTick := some 11400, tickPosition := none } 9600 11520 11400
    rfl rfl rfl rfl
  have hw : (pagePositionChanged demoPageEnv initPageState
      { currentTick := some 11400, tickPosition := none }).2.wrapped = true := by
    norm_num [pagePositionChanged, demoPageEnv, initPageState, orElseQ, SAFETY_MARGIN,
      noResult]
  have h3 := h.2.2
    { hasTickCache := false, findBeat := fun _ => none,
      hasPlaybackRangeField := true } true
    { startTick := 9600, endTick := 11520 } rfl
  refine ⟨h.1 hw, ?_⟩
  rw [h3]
  norm_num [applyLoopSelection]

/-- The scans of pageMain run exactly under the beat-entry gate; stated
against the pre-event cached beat. -/
theorem pageMain_scans_characterized (env : PageEnv) (st : PageState) (tick : ℚ) :
    ((pageMain env st tick).2.scansRan = true →
      ∃ b, (pageMain env st tick).2.resolvedBeat = some b ∧
        (isSameBeat (some b) st.stableCurBeat = false ∨
          (pageMain env st tick).2.jumped = true)) ∧
    (∀ b, (pageMain env st tick).2.resolvedBeat = some b →
      isSameBeat (some b) st.stableCurBeat = true →
      (pageMain env st tick).2.jumped = false →
      (pageMain env st tick).2.scansRan = false) := by
  unfold pageMain
  dsimp only
  by_cases hJ : pageJumped st tick = true
  · simp only [hJ, if_true]
    split
    · exact ⟨fun hs => absurd hs (by simp [noResult]),
        fun b hb => absurd hb (by simp [noResult])⟩
    · split
      · exact ⟨fun hs => absurd hs (by simp [noResult]),
          fun b hb => absurd hb (by simp [noResult])⟩
      · rename_i curBeat heq
        rw [if_pos (Or.inr trivial)]
        exact ⟨fun _ => ⟨curBeat, rfl, Or.inr rfl⟩,
          fun b hb hsame hnj => absurd hnj (by simp)⟩
  · have hJ' : pageJumped st tick = false := by simpa using hJ
    simp only [hJ', Bool.false_eq_true, if_false]
    split
    · exact ⟨fun hs => absurd hs (by simp [noResult]),
        fun b hb => absurd hb (by simp [noResult])⟩
    · split
      · exact ⟨fun hs => absurd hs (by simp [noResult]),
          fun b hb => absurd hb (by simp [noResult])⟩
      · rename_i curBeat heq
        split
        · rename_i hgate
          rcases hgate with hgate | hgate
          · exact ⟨fun _ => ⟨curBeat, rfl, Or.inl hgate⟩,
              fun b hb hsame hnj => by
                cases hb
                rw [hsame] at hgate; exact absurd hgate (by simp)⟩
          · exact absurd hgate (by simp)
        · rename_i hgate
          push_neg at hgate
          exact ⟨fun hs => absurd hs (by simp),
            fun b hb hsame hnj => rfl⟩

/-- C3: on every playback position-change event, the bounded backward
and forward scans execute only when the newly resolved beat differs
from the cached current beat under structural equality (equal
`absolutePlaybackStart` and equal master-bar index, `isSameBeat`) or a
discontinuity jump was detected on that event; whenever the cached beat
identity still matches and no jump occurred, neither scan runs. -/
theorem scanGate_structural_identity (env : PageEnv) (st : PageState) (e : PEvent) :
    ((pagePositionChanged env st e).2.scansRan = true →
      ∃ b, (pagePositionChanged env st e).2.resolvedBeat = some b ∧
        (isSameBeat (some b) st.stableCurBeat = false ∨
          (pagePositionChanged env st e).2.jumped = true)) ∧
    (∀ b, (pagePositionChanged env st e).2.resolvedBeat = some b →
      isSameBeat (some b) st.stableCurBeat = true →
      (pagePositionChanged env st e).2.jumped = false →
      (pagePositionChanged env st e).2.scansRan = false) := by
  unfold pagePositionChanged
  split
  · exact ⟨fun hs => absurd hs (by simp [noResult]),
      fun b hb => absurd hb (by simp [noResult])⟩
  · split
    · exact ⟨fun hs => absurd hs (by simp [noResult]),
        fun b hb => absurd hb (by simp [noResult])⟩
    · split
      · split
        · exact ⟨fun hs => absurd hs (by simp [noResult]),
            fun b hb => absurd hb (by simp [noResult])⟩
        · exact pageMain_scans_characterized env st _
      · exact pageMain_scans_characterized env st _
      · exact pageMain_scans_characterized env st _

/-- Page environment where every tick resolves (via the findBeat
fallback) to `demoBeat`. -/
def gateEnv : PageEnv :=
  { cursorAttached := true, loopEnabled := false, playbackRange := none,
    hasTickCache := true, findBeat := fun _ => some demoBeat,
    masterBars := [], systems := [] }

/-- Page state already inside `demoBeat` at tick 9605. -/
def gateState : PageState :=
  { lastTick := some 9605, stableCurBeat := some demoBeat,
    stableExpandedBeatStart := 9600, stableNextBeat := none }

set_option maxRecDepth 8000 in
/-- C3 witness: a 5-tick advance inside the cached beat (no jump, same
structural identity) runs neither scan. -/
theorem scanGate_structural_identity_witness :
    (pagePositionChanged gateEnv gateState
        { currentTick := some 9610, tickPosition := none }).2.scansRan = false := by
  have h := scanGate_structural_identity gateEnv gateState
    { currentTick := some 9610, tickPosition := none }
  apply h.2 demoBeat
  · norm_num [pagePositionChanged, pageMain, pageJumped, resolveCurBeat,
      gateEnv, gateState, orElseQ, isSameBeat, demoBeat,
      Beat.absolutePlaybackStart, Beat.masterBarIndex, Beat.masterBar]
  · norm_num [isSameBeat, demoBeat, gateState, Beat.absolutePlaybackStart,
      Beat.masterBarIndex, Beat.masterBar, beq_self_eq_true]
  · norm_num [pagePositionChanged, pageMain, pageJumped, resolveCurBeat,
      gateEnv, gateState, orElseQ, isSameBeat, demoBeat,
      Beat.absolutePlaybackStart, Beat.masterBarIndex, Beat.masterBar]

/-- The strict-less reduce keeps the earliest minimum: the foldl of the
TimelineExpander returns an element of the list whose distance to the
reference is minimal, with every earlier element strictly farther. -/
theorem foldl_closest_spec (ref : ℚ) (t : List MBEntry) (h : MBEntry) :
    ∃ l1 l2,
      h :: t = l1 ++ (t.foldl (fun prev curr =>
          if |curr.start - ref| < |prev.start - ref| then curr else prev) h) :: l2 ∧
      (∀ x ∈ l1,
        |(t.foldl (fun prev curr =>
            if |curr.start - ref| < |prev.start - ref| then curr else prev) h).start - ref|
          < |x.start - ref|) ∧
      (∀ x ∈ h :: t,
        |(t.foldl (fun prev curr =>
            if |curr.start - ref| < |prev.start - ref| then curr else prev) h).start - ref|
          ≤ |x.start - ref|) := by
  induction t generalizing h with
  | nil =>
    refine ⟨[], [], rfl, by simp, ?_⟩
    intro x hx
    simp only [List.foldl_nil]
    simp only [List.mem_singleton] at hx
    simp [hx]
  | cons c rest ih =>
    simp only [List.foldl_cons]
    by_cases hc : |c.start - ref| < |h.start - ref|
    · rw [if_pos hc]
      obtain ⟨l1, l2, heq, hstrict, hmin⟩ := ih c
      have hminC : |(rest.foldl (fun prev curr =>
          if |curr.start - ref| < |prev.start - ref| then curr else prev) c).start - ref|
            ≤ |c.start - ref| := hmin c (List.mem_cons_self c rest)
      refine ⟨h :: l1, l2, ?_, ?_, ?_⟩
      · rw [List.cons_append, ← heq]
      · intro x hx
        rcases List.mem_cons.mp hx with rfl | hx
        · exact lt_of_le_of_lt hminC hc
        · exact hstrict x hx
      · intro x hx
        rcases List.mem_cons.mp hx with rfl | hx
        · exact le_of_lt (lt_of_le_of_lt hminC hc)
        · exact hmin x hx
    · rw [if_neg hc]
      have hle : |h.start - ref| ≤ |c.start - ref| := not_lt.mp hc
      obtain ⟨l1, l2, heq, hstrict, hmin⟩ := ih h
      have hminH : |(rest.foldl (fun prev curr =>
          if |curr.start - ref| < |prev.start - ref| then curr else prev) h).start - ref|
            ≤ |h.start - ref| := hmin h (List.mem_cons_self h rest)
      have hminBig : ∀ x ∈ h :: c :: rest,
          |(rest.foldl (fun prev curr =>
              if |curr.start - ref| < |prev.start - ref| then curr else prev) h).start - ref|
            ≤ |x.start - ref| := by
        intro x hx
        rcases List.mem_cons.mp hx with rfl | hx
        · exact hminH
        · rcases List.mem_cons.mp hx with rfl | hx
          · exact le_trans hminH hle
          · exact hmin x (List.mem_cons_of_mem h hx)
      cases l1 with
      | nil =>
        simp only [List.nil_append] at heq
        injection heq with h1 h2
        refine ⟨[], c :: rest, ?_, by simp, hminBig⟩
        simp [← h1]
      | cons a tl =>
        simp only [List.cons_append] at heq
        injection heq with h1 h2
        subst h1
        have hstrictH : |(rest.foldl (fun prev curr =>
            if |curr.start - ref| < |prev.start - ref| then curr else prev) h).start - ref|
              < |h.start - ref| := hstrict h (List.mem_cons_self h tl)
        refine ⟨h :: c :: tl, l2, ?_, ?_, hminBig⟩
        · rw [List.cons_append, List.cons_append, ← h2]
        · intro x hx
          rcases List.mem_cons.mp hx with rfl | hx
          · exact hstrictH
          · rcases List.mem_cons.mp hx with rfl | hx
            · exact lt_of_lt_of_le hstrictH hle
            · exact hstrict x (List.mem_cons_of_mem h hx)

/-- C4: for every structural bar index and reference tick, the
expanded-start resolver returns null exactly when no occurrence of the
index exists, and otherwise returns the start of the occurrence whose
start has minimal absolute distance to the reference, ties broken in
favor of the first-scanned occurrence; in particular for occurrences at
starts 9600, 19200, 28800 and reference 20000 it returns 19200. -/
theorem resolveExpandedBarStart_nearest (masterBars : List MBEntry) (idx ref : ℚ) :
    (resolveExpandedBarStart masterBars idx ref = none ↔
      masterBars.filter (fun mb => mb.index == some idx) = []) ∧
    (∀ s, resolveExpandedBarStart masterBars idx ref = some s →
      ∃ e l1 l2,
        masterBars.filter (fun mb => mb.index == some idx) = l1 ++ e :: l2 ∧
        e.start = s ∧
        (∀ x ∈ l1, |e.start - ref| < |x.start - ref|) ∧
        (∀ x ∈ masterBars.filter (fun mb => mb.index == some idx),
          |e.start - ref| ≤ |x.start - ref|)) ∧
    resolveExpandedBarStart scenarioBars 5 20000 = some 19200 := by
  refine ⟨?_, ?_, ?_⟩
  · unfold resolveExpandedBarStart
    cases hf : masterBars.filter (fun mb => mb.index == some idx) with
    | nil => simp
    | cons a l => simp
  · intro s hs
    unfold resolveExpandedBarStart at hs
    cases hf : masterBars.filter (fun mb => mb.index == some idx) with
    | nil => rw [hf] at hs; simp at hs
    | cons a l =>
      rw [hf] at hs
      simp only [Option.some.injEq] at hs
      obtain ⟨l1, l2, heq, hstrict, hmin⟩ := foldl_closest_spec ref l a
      exact ⟨_, l1, l2, hf ▸ heq, hs, hstrict, hf ▸ hmin⟩
  · norm_num [resolveExpandedBarStart, scenarioBars, List.filter,
      abs_of_nonneg, abs_of_nonpos]

/-- C4 witness: at the scenario instance the returned start 19200 is
the closest occurrence, earlier ones strictly farther. -/
theorem resolveExpandedBarStart_nearest_witness :
    ∃ e l1 l2,
      scenarioBars.filter (fun mb => mb.index == some 5) = l1 ++ e :: l2 ∧
      e.start = 19200 ∧
      (∀ x ∈ l1, |e.start - (20000 : ℚ)| < |x.start - 20000|) ∧
      (∀ x ∈ scenarioBars.filter (fun mb => mb.index == some 5),
        |e.start - (20000 : ℚ)| ≤ |x.start - 20000|) := by
  have h := resolveExpandedBarStart_nearest scenarioBars 5 20000
  exact h.2.1 19200 h.2.2

theorem clamp01_nonneg (p : ℚ) : 0 ≤ MaestroCursor.clamp01 p := le_max_left 0 _

theorem clamp01_le_one (p : ℚ) : MaestroCursor.clamp01 p ≤ 1 :=
  max_le (by norm_num) (min_le_left 1 p)

/-- C5: for every setTick call with a current beat of positive
duration, the interpolated cursor center equals
anchor + clamp01((tick − frozenBeatStart)/beatDuration) × (target − anchor),
where the anchor is the current note-anchor X and the target is the
filled next-beat anchor X in Mode A (next anchor set and right of the
anchor) or the master bar right-edge X in Mode B; and in Mode A the
interpolated and final positions never exceed the next-beat anchor X,
for any tick overshoot. -/
theorem setTick_interpolation_formula (env : CursorEnv) (s : CursorState)
    (tick : ℚ) (nb : Option Beat) (ov : Option ℚ) (cb : Beat)
    (hcb : s.currentBeat = some cb) (hdur : 0 < s.beatDuration) :
    ∃ tr, (MaestroCursor.setTick env s tick nb ov).2 = some tr ∧
      tr.progress = MaestroCursor.clamp01 ((tick - ov.getD s.beatStart) / s.beatDuration) ∧
      (∀ nx, MaestroCursor.fillNextBeatCenterX env (some cb) s.currentY
          s.nextBeatCenterX nb = some nx →
        s.currentNoteX < nx →
        tr.interpolatedX1 = s.currentNoteX + tr.progress * (nx - s.currentNoteX) ∧
        tr.interpolatedX1 ≤ nx ∧ tr.interpolatedX2 ≤ nx) ∧
      (MaestroCursor.fillNextBeatCenterX env (some cb) s.currentY
          s.nextBeatCenterX nb = none →
        ∀ vb, env.findMasterBar cb = some vb →
        tr.interpolatedX1 = s.currentNoteX + tr.progress * ((vb.x + vb.w) - s.currentNoteX)) ∧
      (∀ nx, MaestroCursor.fillNextBeatCenterX env (some cb) s.currentY
          s.nextBeatCenterX nb = some nx →
        ¬s.currentNoteX < nx →
        ∀ vb, env.findMasterBar cb = some vb →
        tr.interpolatedX1 = s.currentNoteX + tr.progress * ((vb.x + vb.w) - s.currentNoteX)) := by
  unfold MaestroCursor.setTick
  rw [hcb]
  dsimp only
  rw [if_neg (not_le.mpr hdur)]
  dsimp only
  rw [if_pos hdur]
  refine ⟨_, rfl, rfl, ?_, ?_, ?_⟩
  · intro nx hfill hlt
    simp only [hfill, hlt, if_pos]
    have hp1 : MaestroCursor.clamp01 ((tick - ov.getD s.beatStart) / s.beatDuration) ≤ 1 :=
      clamp01_le_one _
    have hp0 : 0 ≤ MaestroCursor.clamp01 ((tick - ov.getD s.beatStart) / s.beatDuration) :=
      clamp01_nonneg _
    have hwd : 0 ≤ nx - s.currentNoteX := by linarith
    have hx0 : s.currentNoteX + (nx - s.currentNoteX) *
        MaestroCursor.clamp01 ((tick - ov.getD s.beatStart) / s.beatDuration) ≤ nx := by
      nlinarith
    refine ⟨?_, ?_, ?_⟩
    · rw [min_eq_left hx0]; ring
    · exact le_trans (min_le_left _ _) hx0
    · split
      · exact le_of_lt hlt
      · exact le_trans (min_le_left _ _) hx0
  · intro hfill vb hvb
    simp only [hfill, hvb]
    ring
  · intro nx hfill hlt vb hvb
    simp only [hfill, hvb, hlt, ite_false]
    ring



/-- Cursor environment with no geometry and the transport playing. -/
def playingEnv : CursorEnv :=
  { findBeat := fun _ => none, findMasterBar := fun _ => none, isPlaying := true }

/-- Cursor state frozen inside demoBeat with an established Mode A
next anchor at 250. -/
def modeAState : CursorState :=
  { baseCursorState with
    currentBeat := some demoBeat
    beatDuration := 480
    beatStart := 9600
    beatStartToUse := 9600
    currentNoteX := 100
    nextBeatCenterX := some 250 }

/-- C5 witness: Mode A with anchor 100, next anchor 250, duration 480
and an overshooting tick 10560: progress clamps to 1 and the position
caps exactly at the next anchor 250. -/
theorem setTick_interpolation_formula_witness :
    ∃ tr, (MaestroCursor.setTick playingEnv modeAState 10560 none (some 9600)).2 = some tr ∧
      tr.progress = 1 ∧ tr.interpolatedX1 = 250 ∧ tr.interpolatedX2 ≤ 250 := by
  obtain ⟨tr, htr, hprog, hA, _, _⟩ :=
    setTick_interpolation_formula playingEnv modeAState 10560 none (some 9600) demoBeat
      rfl (by norm_num [modeAState, baseCursorState])
  have hfill : MaestroCursor.fillNextBeatCenterX playingEnv (some demoBeat)
      modeAState.currentY modeAState.nextBeatCenterX none = some 250 := rfl
  obtain ⟨h1, h2, h3⟩ := hA 250 hfill (by norm_num [modeAState, baseCursorState])
  have hp1 : tr.progress = 1 := by
    rw [hprog]
    norm_num [MaestroCursor.clamp01, modeAState, baseCursorState, min_def, max_def]
  refine ⟨tr, htr, hp1, ?_, h3⟩
  rw [h1, hp1]
  norm_num [modeAState, baseCursorState]

/-- C6: whenever the transport is not actively playing and the
per-beat progress is ≥ 0.999, the computed cursor center is pinned to
the current beat anchor X rather than the interpolated target (and so
differs from any value, such as the bar right edge, that differs from
the anchor). -/
theorem setTick_pause_pins_to_anchor (env : CursorEnv) (s : CursorState)
    (tick : ℚ) (nb : Option Beat) (ov : Option ℚ) (cb : Beat)
    (hcb : s.currentBeat = some cb) (hdur : 0 < s.beatDuration)
    (hplay : env.isPlaying = false) :
    ∃ tr, (MaestroCursor.setTick env s tick nb ov).2 = some tr ∧
      (999/1000 ≤ tr.progress →
        tr.interpolatedX2 = s.currentNoteX ∧
        ∀ edge : ℚ, edge ≠ s.currentNoteX → tr.interpolatedX2 ≠ edge) := by
  unfold MaestroCursor.setTick
  rw [hcb]
  dsimp only
  rw [if_neg (not_le.mpr hdur)]
  dsimp only
  rw [if_pos hdur]
  refine ⟨_, rfl, ?_⟩
  dsimp only
  intro hp
  split
  · exact ⟨rfl, fun edge hne h => hne h.symm⟩
  · rename_i hcond
    exact absurd ⟨by simp [hplay], hp⟩ hcond

/-- Cursor environment with master bar right edge at x = 300, transport
stopped. -/
def pausedEnv : CursorEnv :=
  { findBeat := fun _ => none, findMasterBar := fun _ => some ⟨0, 0, 300, 50⟩,
    isPlaying := false }

/-- Cursor state frozen inside demoBeat (anchor 100, duration 480), no
next anchor (Mode B). -/
def pausedState : CursorState :=
  { baseCursorState with
    currentBeat := some demoBeat
    beatDuration := 480
    beatStart := 0
    beatStartToUse := 0
    currentNoteX := 100 }

/-- C6 witness: paused in Mode B with progress 1.000, the rendered
center equals the anchor 100 and not the bar right edge 300. -/
theorem setTick_pause_pins_to_anchor_witness :
    ∃ tr, (MaestroCursor.setTick pausedEnv pausedState 480 none none).2 = some tr ∧
      tr.interpolatedX2 = 100 ∧ tr.interpolatedX2 ≠ 300 := by
  obtain ⟨tr, htr, himp⟩ := setTick_pause_pins_to_anchor pausedEnv pausedState 480 none none
    demoBeat rfl (by norm_num [pausedState, baseCursorState]) rfl
  have hev : (MaestroCursor.setTick pausedEnv pausedState 480 none none).2 =
      some { progress := 1, walkDistance := 200, interpolatedX0 := 300,
             interpolatedX1 := 300, interpolatedX2 := 100, finalX := 93 } := by
    norm_num [MaestroCursor.setTick, MaestroCursor.fillNextBeatCenterX,
      MaestroCursor.clamp01, MaestroCursor.applyTransform, MaestroCursor.cursorWidth,
      pausedEnv, pausedState, baseCursorState, demoBeat, min_def, max_def]
  have htrc := Option.some.inj (hev.symm.trans htr)
  obtain ⟨h1, h2⟩ := himp (by rw [← htrc]; norm_num)
  refine ⟨tr, htr, ?_, ?_⟩
  · rw [h1]; norm_num [pausedState, baseCursorState]
  · rw [h1]; norm_num [pausedState, baseCursorState]

/-- A press that resolves a beat arms the gesture: anchors recorded,
beatCrossed cleared. -/
theorem onDown_resolves (env : OverlayEnv) (e : MouseEv) (b0 : Beat) (x0 : ℚ)
    (hloop : env.loopEnabled = true) (hres : env.resolve e = some (b0, x0)) :
    onDown env initGesture e =
      { isDragging := true, startBeat := some b0, endBeat := some b0,
        downX := e.clientX, downY := e.clientY,
        downTick := some (tickOf env b0), beatCrossed := false } := by
  unfold onDown
  rw [hloop, hres]
  simp

/-- One move event preserves the press anchors and leaves beatCrossed
false exactly when it was false and the move resolved no different
tick. -/
theorem onMove_step (env : OverlayEnv) (s : GestureState) (m : MouseEv)
    (b0 : Beat) (d : ℚ)
    (hdrag : s.isDragging = true) (hsb : s.startBeat = some b0)
    (hdt : s.downTick = some d) :
    (onMove env s m).isDragging = true ∧
    (onMove env s m).startBeat = some b0 ∧
    (onMove env s m).downTick = some d ∧
    ((onMove env s m).beatCrossed = false ↔
      (s.beatCrossed = false ∧
        ∀ b x, env.resolve m = some (b, x) → tickOf env b = d)) := by
  unfold onMove
  rw [hdrag, hsb]
  dsimp only
  cases hres : env.resolve m with
  | none =>
    refine ⟨hdrag, hsb, hdt, ?_⟩
    simp [hres]
  | some p =>
    obtain ⟨b, x⟩ := p
    rw [hdt]
    dsimp only
    by_cases hne : tickOf env b ≠ d
    · rw [if_pos hne]
      refine ⟨rfl, rfl, rfl, ?_⟩
      simp only [hres]
      constructor
      · intro hc; exact absurd hc (by simp)
      · rintro ⟨-, hall⟩
        exact absurd (hall b x rfl) hne
    · rw [if_neg hne]
      push_neg at hne
      refine ⟨rfl, rfl, rfl, ?_⟩
      simp only [hres]
      constructor
      · intro hc
        refine ⟨hc, ?_⟩
        rintro b' x' hbx
        obtain ⟨rfl, rfl⟩ := Prod.mk.inj (Option.some.inj hbx)
        exact hne
      · rintro ⟨hc, -⟩; exact hc

/-- Over a whole sequence of moves, beatCrossed stays false exactly
when every move that resolved a beat resolved the press tick. -/
theorem onMove_foldl_spec (env : OverlayEnv) (moves : List MouseEv)
    (b0 : Beat) (d : ℚ) (s : GestureState)
    (hdrag : s.isDragging = true) (hsb : s.startBeat = some b0)
    (hdt : s.downTick = some d) :
    (moves.foldl (onMove env) s).isDragging = true ∧
    (moves.foldl (onMove env) s).startBeat = some b0 ∧
    (moves.foldl (onMove env) s).downTick = some d ∧
    ((moves.foldl (onMove env) s).beatCrossed = false ↔
      (s.beatCrossed = false ∧
        ∀ e ∈ moves, ∀ b x, env.resolve e = some (b, x) → tickOf env b = d)) := by
  induction moves generalizing s with
  | nil => simpa using ⟨hdrag, hsb, hdt⟩
  | cons m rest ih =>
    simp only [List.foldl_cons]
    obtain ⟨h1, h2, h3, h4⟩ := onMove_step env s m b0 d hdrag hsb hdt
    obtain ⟨g1, g2, g3, g4⟩ := ih (onMove env s m) h1 h2 h3
    refine ⟨g1, g2, g3, ?_⟩
    rw [g4, h4]
    constructor
    · rintro ⟨⟨hc, hm⟩, hrest⟩
      refine ⟨hc, ?_⟩
      intro e he b x hres
      rcases List.mem_cons.mp he with rfl | he
      · exact hm b x hres
      · exact hrest e he b x hres
    · rintro ⟨hc, hall⟩
      exact ⟨⟨hc, fun b x hres => hall m (List.mem_cons_self m rest) b x hres⟩,
        fun e he b x hres => hall e (List.mem_cons_of_mem m he) b x hres⟩



/-- C8: a pointer release commits the full containing bar (the
bar-snap range from the repeat-safe expanded occurrence table) if and
only if no move event during the whole press-move-release gesture
resolved a beat tick different from the tick resolved at press: the
decision is the beatCrossed boolean captured over the gesture, not any
position comparison at release.  In particular a press resolving tick
9600 followed by moves that each re-resolve 9600 commits the full
containing bar. -/
theorem barSnap_iff_no_beat_crossed (env : OverlayEnv) (down : MouseEv)
    (moves : List MouseEv) (b0 : Beat) (x0 : ℚ) (r : ℚ × ℚ)
    (hloop : env.loopEnabled = true)
    (hdown : env.resolve down = some (b0, x0))
    (hsnap : commitBarSnap env b0 = some r) :
    runGesture env down moves = CommitOutcome.bar r.1 r.2 ↔
      ∀ e ∈ moves, ∀ b x, env.resolve e = some (b, x) →
        tickOf env b = tickOf env b0 := by
  unfold runGesture
  rw [onDown_resolves env down b0 x0 hloop hdown]
  obtain ⟨hd, hs, hdt, hcross⟩ := onMove_foldl_spec env moves b0 (tickOf env b0)
    { isDragging := true, startBeat := some b0, endBeat := some b0,
      downX := down.clientX, downY := down.clientY,
      downTick := some (tickOf env b0), beatCrossed := false }
    rfl rfl rfl
  unfold onUp
  rw [hd, hs]
  dsimp only
  cases hbc : (moves.foldl (onMove env)
      { isDragging := true, startBeat := some b0, endBeat := some b0,
        downX := down.clientX, downY := down.clientY,
        downTick := some (tickOf env b0), beatCrossed := false }).beatCrossed with
  | false =>
    rw [hsnap]
    dsimp only
    constructor
    · intro _
      exact (hcross.mp hbc).2
    · intro _; rfl
  | true =>
    constructor
    · intro hcommit
      exact absurd hcommit (by cases hc : commitBarSnap env b0 <;> simp [hc])
    · intro hall
      have : (moves.foldl (onMove env)
          { isDragging := true, startBeat := some b0, endBeat := some b0,
            downX := down.clientX, downY := down.clientY,
            downTick := some (tickOf env b0), beatCrossed := false }).beatCrossed = false :=
        hcross.mpr ⟨rfl, hall⟩
      rw [hbc] at this
      exact absurd this (by simp)

/-- C8 witness: press at tick 9600 with three sub-pixel moves each
re-resolving 9600 commits the full containing bar [9600, 11520), not a
single-beat range. -/
theorem barSnap_iff_no_beat_crossed_witness :
    runGesture demoOverlayEnv ⟨50, 50⟩ [⟨51, 50⟩, ⟨52, 50⟩, ⟨53, 50⟩] =
      CommitOutcome.bar 9600 11520 := by
  have hsnap : commitBarSnap demoOverlayEnv demoBeat = some (9600, 11520) := by
    norm_num [commitBarSnap, getExpandedBarRange, tickOf, demoOverlayEnv,
      demoMasterBars, demoBeat, Beat.barIdx, Beat.barIndex, Beat.masterBarIndex,
      Beat.masterBar, orElseQ, List.findSome?]
  have h := barSnap_iff_no_beat_crossed demoOverlayEnv ⟨50, 50⟩
    [⟨51, 50⟩, ⟨52, 50⟩, ⟨53, 50⟩] demoBeat 100 (9600, 11520) rfl rfl hsnap
  refine h.mpr ?_
  intro e he b x hres
  have : (demoBeat, (100 : ℚ)) = (b, x) := Option.some.inj hres
  obtain ⟨rfl, rfl⟩ := Prod.mk.inj this
  rfl

end AlphaTabLab
